import Mathlib

set_option autoImplicit false

/-! Shallow embedding of `src/openapi/src/v2/codegen/object.rs`: the codegen
data model (`ApiObject`, `PathOps`, `OpRequirement`, `Parameter`,
`ObjectField`), the per-builder field/parameter unifier
(`struct_fields_iter`), the typestate and emitter helpers (`needs_container`,
`con_fn_name`, `write_generics_if_necessary`, `write_property_method`, the
builder-struct `Display` impl, `write_into_impl`,
`write_sendable_impl_if_needed`) and `ApiObject::builders`.
`BTreeMap`s are modelled as association lists in iteration order, `HashSet`
as a list of seen keys, and generated Rust text is abstracted to structured
descriptions of the emitted items. -/

/-- Modelled from the spec: `crate::v2::models::HttpMethod`, the closed
enumeration of HTTP methods, defined upstream of the embedded file. -/
inductive HttpMethod where
  | get | put | post | delete | options | head | patch
deriving DecidableEq, Repr

/-- Modelled from the spec: the `Display` token of an `HttpMethod` (its
camel-cased variant name), defined upstream of the embedded file. -/
def HttpMethod.toStr : HttpMethod → String
  | .get => "Get"
  | .put => "Put"
  | .post => "Post"
  | .delete => "Delete"
  | .options => "Options"
  | .head => "Head"
  | .patch => "Patch"

/-- Modelled from the spec: `crate::v2::models::ParameterIn`, the location of
a parameter ("path segment, query string, header, other out-of-band
placements - an enumerated, closed set"). -/
inductive ParameterIn where
  | path | query | header | body | formData
deriving DecidableEq, Repr

/-- Modelled from the spec: helper for the upstream case-conversion utility
(the snake-case form); inserts an underscore before each upper-case letter
and lowers it. -/
def snek_chars : List Char → List Char
  | [] => []
  | c :: rest =>
    if c.isUpper then '_' :: c.toLower :: snek_chars rest
    else c :: snek_chars rest

/-- Modelled from the spec: the upstream case-conversion utility, snake-case
form (`to_snek_case`); a stable mapping whose exact rendering is external to
the embedded component. -/
def to_snek_case (s : String) : String :=
  match snek_chars s.toList with
  | '_' :: rest => String.mk rest
  | l => String.mk l

/-- Modelled from the spec: helper for the camel-case form; removes
underscores and uppers the letter that follows each one. -/
def camel_chars : List Char → List Char
  | [] => []
  | '_' :: c :: rest => c.toUpper :: camel_chars rest
  | '_' :: [] => []
  | c :: rest => c :: camel_chars rest

/-- Modelled from the spec: the upstream case-conversion utility, camel-case
form (`to_camel_case`). -/
def to_camel_case (s : String) : String :=
  match s.toList with
  | [] => ""
  | c :: rest => String.mk (c.toUpper :: camel_chars rest)

/-- Modelled from the spec: the reserved-identifier table used to rename
unified field names that collide with output-language keywords
(`RUST_KEYWORDS`); only membership matters to the embedded code. -/
def RUST_KEYWORDS : List String :=
  ["as", "box", "break", "const", "continue", "crate", "else", "enum",
   "false", "fn", "for", "if", "impl", "in", "let", "loop", "match", "mod",
   "move", "mut", "pub", "ref", "return", "self", "static", "struct",
   "super", "trait", "true", "type", "use", "where", "while"]

/-- `Parameter`: represents some parameter somewhere (header, path, query,
etc.). -/
structure Parameter where
  name : String
  description : Option String
  ty_path : String
  required : Bool
  presence : ParameterIn
deriving DecidableEq, Repr

/-- `ObjectField`: represents a struct field of an API object. -/
structure ObjectField where
  name : String
  ty_path : String
  description : Option String
  is_required : Bool
  boxed : Bool
  children_req : List String
deriving DecidableEq, Repr

/-- `OpRequirement`: requirement for an object corresponding to some
operation. -/
structure OpRequirement where
  id : Option String
  description : Option String
  params : List Parameter
  body_required : Bool
  response_ty_path : Option String
deriving DecidableEq, Repr

/-- `PathOps`: operations in a path; `req` models the
`BTreeMap<HttpMethod, OpRequirement>` as an association list in iteration
order. -/
structure PathOps where
  req : List (HttpMethod × OpRequirement)
  params : List Parameter
deriving DecidableEq, Repr

/-- `ApiObject`: a (simplified) Rust struct; `paths` models the
`BTreeMap<String, PathOps>` as an association list in iteration order. -/
structure ApiObject where
  name : String
  description : Option String
  path : String
  fields : List ObjectField
  paths : List (String × PathOps)
deriving DecidableEq, Repr

/-- `Property`: what a unified struct field represents. -/
inductive Property where
  | requiredField | optionalField | requiredParam | optionalParam
deriving DecidableEq, Repr

/-- `Property::is_required`. -/
def Property.is_required : Property → Bool
  | .requiredField | .requiredParam => true
  | _ => false

/-- `Property::is_parameter`. -/
def Property.is_parameter : Property → Bool
  | .requiredParam | .optionalParam => true
  | _ => false

/-- `Property::is_field`. -/
def Property.is_field : Property → Bool
  | .requiredField | .optionalField => true
  | _ => false

/-- `StructField`: a Rust struct field derived from an object field or a
parameter while building one builder. -/
structure StructField where
  name : String
  ty : String
  prop : Property
  desc : Option String
  overridden : Bool
  strict_children : List String
  param_loc : Option ParameterIn
deriving DecidableEq, Repr

/-- `ApiObjectBuilder`: a builder struct for some API object (the borrowed
`&str`/slice fields are modelled by values). The source field
`helper_module_prefix` is named `helper_module_pfx` here. -/
structure ApiObjectBuilder where
  idx : Nat
  multiple_builders_exist : Bool
  base_path : String
  rel_path : Option String
  helper_module_pfx : String
  op_id : Option String
  method : Option HttpMethod
  description : Option String
  object : String
  body_required : Bool
  fields : List ObjectField
  global_params : List Parameter
  local_params : List Parameter
  response : Option String
deriving DecidableEq, Repr

/-- The closure in `struct_fields_iter` that turns one `ObjectField` into a
`StructField`: the field is "required" only if the body itself is required. -/
def mkFieldStructField (body_required : Bool) (field : ObjectField) : StructField :=
  { name := field.name
    ty := field.ty_path
    prop := if body_required && field.is_required then .requiredField else .optionalField
    desc := field.description
    strict_children := field.children_req
    param_loc := none
    overridden := false }

/-- The `field_iter` part of `struct_fields_iter`. -/
def fieldStructFields (b : ApiObjectBuilder) : List StructField :=
  b.fields.map (mkFieldStructField b.body_required)

/-- The closure in `struct_fields_iter` that turns one `Parameter` into a
`StructField`. -/
def mkParamStructField (p : Parameter) : StructField :=
  { name := p.name
    ty := p.ty_path
    prop := if p.required then .requiredParam else .optionalParam
    desc := p.description
    strict_children := []
    param_loc := some p.presence
    overridden := false }

/-- The `scan(HashSet::new(), ..)` in `struct_fields_iter`: a parameter whose
name is already in the seen set is skipped, otherwise its name is inserted
and it is yielded as a `StructField`. -/
def dedupParams (seen : List String) : List Parameter → List StructField
  | [] => []
  | p :: rest =>
    if p.name ∈ seen then dedupParams seen rest
    else mkParamStructField p :: dedupParams (p.name :: seen) rest

/-- The `param_iter` part of `struct_fields_iter`: global (path-shared)
parameters chained before local (operation-specific) ones, deduplicated by
name with the first occurrence kept. -/
def paramStructFields (b : ApiObjectBuilder) : List StructField :=
  dedupParams [] (b.global_params ++ b.local_params)

/-- One step of the parameter-field collision loop in `struct_fields_iter`:
scan the accumulated `fields` vector for the first entry with the same name;
if found and the types agree, mark it `overridden` (dropping the new entry),
if found with a different type drop the new entry unchanged, otherwise push
the new entry at the end. -/
def insertField (f : StructField) : List StructField → List StructField
  | [] => [f]
  | g :: rest =>
    if g.name = f.name then
      (if g.ty = f.ty then { g with overridden := true } else g) :: rest
    else g :: insertField f rest

/-- The collision loop of `struct_fields_iter`: fold `insertField` over the
chained input, starting from the empty vector. -/
def resolveFields (l : List StructField) : List StructField :=
  l.foldl (fun acc f => insertField f acc) []

/-- `ApiObjectBuilder::struct_fields_iter`: the unified field list of one
builder. -/
def struct_fields_iter (b : ApiObjectBuilder) : List StructField :=
  resolveFields (paramStructFields b ++ fieldStructFields b)

/-- `ApiObjectBuilder::needs_container`. -/
def needs_container (b : ApiObjectBuilder) : Bool :=
  (b.local_params ++ b.global_params).any (fun p => p.required)
    || (b.body_required && b.fields.any (fun f => f.is_required))

/-- `ApiObjectBuilder::has_atleast_one_field`. -/
def has_atleast_one_field (b : ApiObjectBuilder) : Bool :=
  (struct_fields_iter b).any (fun f => f.prop.is_parameter || f.prop.is_required)

/-- `ApiObjectBuilder::con_fn_name`: name of the constructor function which
creates this builder, mirroring the source `match` arm for arm. -/
def con_fn_name (b : ApiObjectBuilder) : Option String :=
  match b.op_id, b.method with
  | _, some meth =>
    if b.multiple_builders_exist = false then
      some (to_snek_case meth.toStr)
    else
      match b.op_id with
      | some id => some (to_snek_case id)
      | none =>
        some (to_snek_case meth.toStr ++ (if b.idx > 0 then "_" ++ toString b.idx else ""))
  | some id, none => some (to_snek_case id)
  | none, none => none

/-- `TypeParameters`: which of the builder's phantom type parameters should
be written as actual marker types. -/
inductive TypeParameters where
  | generic
  | changeOne (name : String)
  | replaceAll
  | changeAll

/-- The `Exists` marker type written for a satisfied mandatory field:
`{helper_module_prefix}generics::{CamelCase}Exists`. -/
def exists_marker (b : ApiObjectBuilder) (name : String) : String :=
  b.helper_module_pfx ++ "generics::" ++ to_camel_case name ++ "Exists"

/-- One generic token written by `write_generics_if_necessary` for one
required unified field, mirroring the source `match` on `TypeParameters`. -/
def genericToken (b : ApiObjectBuilder) (params : TypeParameters) (g : StructField) : String :=
  match params with
  | .changeOne n => if g.name = n then exists_marker b g.name else to_camel_case g.name
  | .changeAll => exists_marker b g.name
  | .replaceAll => b.helper_module_pfx ++ "generics::Missing" ++ to_camel_case g.name
  | .generic => to_camel_case g.name

/-- The required unified fields of a builder, in iterator order: exactly the
fields that receive a phantom type parameter. -/
def requiredFields (b : ApiObjectBuilder) : List StructField :=
  (struct_fields_iter b).filter (fun f => f.prop.is_required)

/-- `ApiObjectBuilder::write_generics_if_necessary`, abstracted to the list
of generic tokens written between `<` and `>` (one per required unified
field). -/
def write_generics (b : ApiObjectBuilder) (params : TypeParameters) : List String :=
  (requiredFields b).map (genericToken b params)

/-- Return type of a generated setter method. -/
inductive SetterReturn where
  | selfTy
  | builderTy (generics : List String)
deriving DecidableEq, Repr

/-- Which slot a generated setter writes to: a `param_` slot, a `body.`
field, or a bare field access (fields of a builder with no required body). -/
inductive SlotKind where
  | param | body | bare
deriving DecidableEq, Repr

/-- Structured description of one generated setter method. -/
structure SetterMethod where
  method_name : String
  return_ty : SetterReturn
  via_inner : Bool
  slot : SlotKind
  slot_name : String
  wraps_some : Bool
  copies_to_body : Bool
  transmutes : Bool
deriving DecidableEq, Repr

/-- `ApiObjectBuilderImpl::write_property_method`, abstracted to the
structure of the emitted setter: its return type (`Self`, or the builder
type with generics from `TypeParameters::ChangeOne(field.name)`), the slot
assigned to (prefixed by `inner.` when a container is used, wrapped in
`Some(..)` for parameters and optional fields), whether the overridden-field
block additionally assigns the converted value to the body field of the same
name (`copies_to_body`), and whether the method returns
`unsafe { std::mem::transmute(self) }` rather than `self` (`transmutes`).
The textual value-conversion expression (`write_value_map`) is abstracted
away. -/
def write_property_method (b : ApiObjectBuilder) (field : StructField) : SetterMethod :=
  let field_name := to_snek_case field.name
  let needs_trailing_dash := field.prop.is_field && RUST_KEYWORDS.any (fun k => k == field_name)
  { method_name := field_name
    return_ty :=
      if field.prop.is_required then .builderTy (write_generics b (.changeOne field.name))
      else .selfTy
    via_inner := needs_container b
    slot :=
      if field.prop.is_parameter then .param
      else if b.body_required then .body
      else .bare
    slot_name := field_name ++ (if needs_trailing_dash then "_" else "")
    wraps_some := field.prop.is_parameter || !field.prop.is_required
    copies_to_body := field.overridden && b.body_required
    transmutes := field.prop.is_required }

/-- Structured description of the `Into<Object>` impl emitted for a
fulfilled builder. -/
structure IntoImpl where
  target : String
  generics : List String
  via_inner : Bool
deriving DecidableEq, Repr

/-- `ApiObjectImpl::write_into_impl`: emitted only when the builder's body is
required; the impl is on the builder instantiated with
`TypeParameters::ChangeAll` (every phantom parameter `Exists`) and reads
`self.inner.body` or `self.body` depending on the container. -/
def write_into_impl (o : ApiObject) (b : ApiObjectBuilder) : Option IntoImpl :=
  if b.body_required = false then none
  else some { target := o.name
              generics := write_generics b .changeAll
              via_inner := needs_container b }

/-- One field of an emitted builder (or container) struct. -/
inductive BuilderField where
  | inner
  | body (ty : String)
  | paramSlot (name ty : String)
  | phantom (name : String) (isParam : Bool)
deriving DecidableEq, Repr

/-- `ApiObjectBuilder::write_parameter_if_required`: a `param_{name}:
Option<{ty}>,` slot, written for parameters only. -/
def write_parameter_if_required (prop : Property) (name ty : String) : List BuilderField :=
  if prop.is_parameter then [.paramSlot name ty] else []

/-- The fields of the emitted builder struct, from the `Display` impl for
`ApiObjectBuilder`: with a container, `inner` followed only by the phantom
markers; without one, the body field (if required) followed by parameter
slots interleaved with phantom markers. -/
def builder_struct_fields (b : ApiObjectBuilder) : List BuilderField :=
  let nc := needs_container b
  (if nc then [.inner] else (if b.body_required then [.body b.object] else []))
    ++ ((struct_fields_iter b).map (fun f =>
          (if nc then [] else write_parameter_if_required f.prop (to_snek_case f.name) f.ty)
            ++ (if f.prop.is_required then
                  [.phantom (to_snek_case f.name) f.prop.is_parameter]
                else []))).flatten

/-- The fields of the emitted container struct (meaningful only when
`needs_container`): the body field (if required) followed by one slot per
parameter. -/
def container_struct_fields (b : ApiObjectBuilder) : List BuilderField :=
  (if b.body_required then [.body b.object] else [])
    ++ ((struct_fields_iter b).map (fun f =>
          write_parameter_if_required f.prop (to_snek_case f.name) f.ty)).flatten

/-- Structured description of the emitted builder struct. -/
structure EmittedBuilderStruct where
  repr_transparent : Bool
  fields : List BuilderField
  container : Option (List BuilderField)
deriving DecidableEq, Repr

/-- The `Display` impl for `ApiObjectBuilder`, abstracted to its layout
facts: `#[repr(transparent)]` is written exactly when a container is needed,
and the container struct is emitted exactly then. -/
def emit_builder_struct (b : ApiObjectBuilder) : EmittedBuilderStruct :=
  { repr_transparent := needs_container b
    fields := builder_struct_fields b
    container := if needs_container b then some (container_struct_fields b) else none }

/-- Structured description of the emitted `Sendable` impl. -/
structure SendableImpl where
  output : String
  method : HttpMethod
  url_template : String
  path_params : List String
  query_section : Option (List String)
  via_inner : Bool
deriving DecidableEq, Repr

/-- The `query` string accumulated by `write_sendable_impl_if_needed`,
abstracted to the list of names appended: one per unified field whose
location is the query string, in iterator order. -/
def query_names (b : ApiObjectBuilder) : List String :=
  (struct_fields_iter b).foldl
    (fun q f => if f.param_loc = some ParameterIn.query then q ++ [f.name] else q) []

/-- `ApiObjectBuilderImpl::write_sendable_impl_if_needed`, abstracted: `none`
unless the builder is bound to a relative path and a method; otherwise the
output type (declared response or the object itself), the method, the URL
template `{base_path}{rel_path}`, the names substituted into it (every
path-located unified field, each read through
`param_{name}.as_ref().expect(..)`), and the query section, emitted only
when at least one query pair was accumulated. -/
def write_sendable_impl_if_needed (b : ApiObjectBuilder) : Option SendableImpl :=
  match b.rel_path, b.method with
  | some p, some m =>
    let q := query_names b
    some { output := b.response.getD b.object
           method := m
           url_template := b.base_path ++ p
           path_params := ((struct_fields_iter b).filter
               (fun f => f.param_loc == some ParameterIn.path)).map (fun f => f.name)
           query_section := if q = [] then none else some q
           via_inner := needs_container b }
  | _, _ => none

/-- Evaluation model of the emitted `path_url` argument list: each
path-located parameter slot is read with an unconditional `expect`, so the
first unset slot aborts assembly (modelled as `Except.error`); otherwise
every (name, value) substitution pair is produced. -/
def substPathParams : List String → (String → Option String) → Except String (List (String × String))
  | [], _ => .ok []
  | n :: rest, slots =>
    match slots n with
    | none => .error ("missing parameter " ++ n ++ "?")
    | some v => (substPathParams rest slots).map (fun l => (n, v) :: l)

/-- Evaluation model of the emitted `path_url` body: `format!` over the URL
template with one named substitution per path-located parameter. -/
def eval_path_url (d : SendableImpl) (slots : String → Option String) : Except String String :=
  (substPathParams d.path_params slots).map (fun args =>
    args.foldl (fun url nv => url.replace ("\x7b" ++ nv.1 ++ "\x7d") nv.2) d.url_template)

/-- Evaluation model of the emitted query assembly: one
`(name, param.as_ref().map(ToString))` pair per accumulated query name, the
value `none` while the parameter is unset. -/
def eval_query_pairs (names : List String) (slots : String → Option String) :
    List (String × Option String) :=
  names.map (fun n => (n, slots n))

/-- The `ApiObjectBuilder` literal built by `ApiObject::builders` for one
`(path index, path, path_ops, method, requirement)`; `count` is the total
number of operations across all the object's paths. -/
def mkPathBuilder (o : ApiObject) (helper_module_pfx base_path : String) (count : Nat)
    (idx : Nat) (path : String) (path_ops : PathOps) (method : HttpMethod)
    (req : OpRequirement) : ApiObjectBuilder :=
  { idx := idx
    multiple_builders_exist := decide (count > 1)
    helper_module_pfx := helper_module_pfx
    base_path := base_path
    rel_path := some path
    description := req.description
    object := o.name
    op_id := req.id
    method := some method
    body_required := req.body_required
    fields := o.fields
    global_params := path_ops.params
    local_params := req.params
    response := req.response_ty_path }

/-- The `main_builder` literal at the head of `ApiObject::builders`: the bare
builder, bound to no operation, with `body_required: true` and empty
parameter lists. -/
def mainBuilder (o : ApiObject) (helper_module_pfx base_path : String) : ApiObjectBuilder :=
  { idx := 0
    multiple_builders_exist := false
    helper_module_pfx := helper_module_pfx
    base_path := base_path
    rel_path := none
    description := none
    object := o.name
    method := none
    op_id := none
    body_required := true
    fields := o.fields
    global_params := []
    local_params := []
    response := none }

/-- The `count` computed by `ApiObject::builders`:
`paths.values().flat_map(|path_ops| path_ops.req.iter()).count()`. -/
def totalOpCount (o : ApiObject) : Nat :=
  (o.paths.map (fun pp => pp.2.req.length)).sum

/-- `ApiObject::builders`: the bare builder first, then one builder per
(path, method) pair in path-enumeration order. -/
def ApiObject.builders (o : ApiObject) (helper_module_pfx base_path : String) :
    List ApiObjectBuilder :=
  mainBuilder o helper_module_pfx base_path ::
    (o.paths.enum.flatMap (fun ip =>
      ip.2.2.req.map (fun mr =>
        mkPathBuilder o helper_module_pfx base_path (totalOpCount o) ip.1 ip.2.1 ip.2.2 mr.1 mr.2)))

/-! Lemmas about the collision-resolution fold of `struct_fields_iter`. -/

/-- First-match lookup by name, the search the collision loop performs. -/
def lookupName (n : String) : List StructField → Option StructField
  | [] => none
  | g :: rest => if g.name = n then some g else lookupName n rest

/-- The effect of one inserted entry on the entry currently associated with a
fixed name. -/
def stepName (n : String) (cur : Option StructField) (f : StructField) : Option StructField :=
  if f.name = n then
    match cur with
    | none => some f
    | some g => some (if g.ty = f.ty then { g with overridden := true } else g)
  else cur

/-- Set the `overridden` flag of an entry when `b` is true. -/
def setOver (g : StructField) (b : Bool) : StructField :=
  { g with overridden := g.overridden || b }

theorem setOver_false (g : StructField) : setOver g false = g := by
  simp [setOver]

theorem lookup_insertField (n : String) (f : StructField) (acc : List StructField) :
    lookupName n (insertField f acc) = stepName n (lookupName n acc) f := by
  induction acc with
  | nil =>
    by_cases h : f.name = n <;> simp [insertField, lookupName, stepName, h]
  | cons g rest ih =>
    by_cases hgf : g.name = f.name
    · by_cases hgn : g.name = n
      · have hfn : f.name = n := hgf ▸ hgn
        by_cases hty : g.ty = f.ty
        · simp only [insertField, if_pos hgf, if_pos hty, lookupName, stepName,
            if_pos hgn, if_pos hfn]
        · simp only [insertField, if_pos hgf, if_neg hty, lookupName, stepName,
            if_pos hgn, if_pos hfn]
      · have hfn : f.name ≠ n := fun h => hgn (hgf ▸ h)
        by_cases hty : g.ty = f.ty
        · simp only [insertField, if_pos hgf, if_pos hty, lookupName, stepName,
            if_neg hgn, if_neg hfn]
        · simp only [insertField, if_pos hgf, if_neg hty, lookupName, stepName,
            if_neg hgn, if_neg hfn]
    · by_cases hgn : g.name = n
      · have hfn : f.name ≠ n := fun h => hgf (by rw [hgn, h])
        simp only [insertField, if_neg hgf, lookupName, if_pos hgn, stepName, if_neg hfn]
      · simp only [insertField, if_neg hgf, lookupName, if_neg hgn, ih]

theorem lookup_foldl (n : String) (l : List StructField) (acc : List StructField) :
    lookupName n (l.foldl (fun a f => insertField f a) acc) =
      l.foldl (stepName n) (lookupName n acc) := by
  induction l generalizing acc with
  | nil => rfl
  | cons f rest ih => simp only [List.foldl_cons, ih, lookup_insertField]

theorem foldl_stepName_no_match (n : String) (l : List StructField)
    (cur : Option StructField) (h : ∀ f ∈ l, f.name ≠ n) :
    l.foldl (stepName n) cur = cur := by
  induction l generalizing cur with
  | nil => rfl
  | cons f rest ih =>
    have hf : f.name ≠ n := h f (List.mem_cons_self _ _)
    simp only [List.foldl_cons, stepName, if_neg hf]
    exact ih _ (fun g hg => h g (List.mem_cons_of_mem _ hg))

theorem foldl_stepName_some (n : String) (l : List StructField) (g : StructField) :
    l.foldl (stepName n) (some g) =
      some (setOver g (l.any (fun f => decide (f.name = n) && decide (g.ty = f.ty)))) := by
  induction l generalizing g with
  | nil => simp [setOver]
  | cons f rest ih =>
    by_cases hf : f.name = n
    · by_cases hty : g.ty = f.ty
      · simp only [List.foldl_cons, stepName, if_pos hf, if_pos hty, List.any_cons, ih]
        simp [setOver, hf, hty]
      · simp only [List.foldl_cons, stepName, if_pos hf, if_neg hty, List.any_cons, ih]
        simp [setOver, hf, hty]
    · simp only [List.foldl_cons, stepName, if_neg hf, List.any_cons, ih]
      simp [setOver, hf]

/-- The entry the collision loop keeps for a name is the first input entry
with that name, its `overridden` flag set exactly when a later input entry
has the same name and the same type. -/
theorem lookup_resolve (e : StructField) (l₁ l₂ : List StructField)
    (h₁ : ∀ x ∈ l₁, x.name ≠ e.name) :
    lookupName e.name (resolveFields (l₁ ++ e :: l₂)) =
      some (setOver e (l₂.any (fun f => decide (f.name = e.name) && decide (e.ty = f.ty)))) := by
  unfold resolveFields
  rw [lookup_foldl, List.foldl_append, List.foldl_cons,
    foldl_stepName_no_match e.name l₁ _ h₁]
  show l₂.foldl (stepName e.name) (stepName e.name none e) = _
  simp only [stepName, if_pos rfl]
  exact foldl_stepName_some _ _ _

theorem mem_of_lookupName (n : String) (l : List StructField) (g : StructField)
    (h : lookupName n l = some g) : g ∈ l := by
  induction l with
  | nil => cases h
  | cons x rest ih =>
    by_cases hx : x.name = n
    · simp only [lookupName, if_pos hx, Option.some.injEq] at h
      exact h ▸ List.mem_cons_self _ _
    · simp only [lookupName, if_neg hx] at h
      exact List.mem_cons_of_mem _ (ih h)

theorem lookupName_of_mem_nodup (l : List StructField) (e : StructField)
    (hn : (l.map (fun f => f.name)).Nodup) (he : e ∈ l) :
    lookupName e.name l = some e := by
  induction l with
  | nil => cases he
  | cons x rest ih =>
    simp only [List.map_cons, List.nodup_cons] at hn
    rcases List.mem_cons.mp he with rfl | hrest
    · simp [lookupName]
    · have hx : x.name ≠ e.name := by
        intro hEq
        exact hn.1 (hEq ▸ List.mem_map_of_mem (fun f => f.name) hrest)
      simp only [lookupName, if_neg hx]
      exact ih hn.2 hrest

theorem insertField_names (f : StructField) (acc : List StructField) :
    (insertField f acc).map (fun g => g.name) = acc.map (fun g => g.name) ∨
    ((insertField f acc).map (fun g => g.name) = acc.map (fun g => g.name) ++ [f.name] ∧
      f.name ∉ acc.map (fun g => g.name)) := by
  induction acc with
  | nil => right; simp [insertField]
  | cons g rest ih =>
    by_cases hgf : g.name = f.name
    · left
      by_cases hty : g.ty = f.ty <;>
        simp [insertField, if_pos hgf, hty]
    · rcases ih with h | ⟨h, hnot⟩
      · left; simp [insertField, if_neg hgf, h]
      · right
        constructor
        · simp [insertField, if_neg hgf, h]
        · simp only [List.map_cons, List.mem_cons]
          rintro (h' | h')
          · exact hgf h'.symm
          · exact hnot h'

theorem insertField_names_nodup (f : StructField) (acc : List StructField)
    (h : (acc.map (fun g => g.name)).Nodup) :
    ((insertField f acc).map (fun g => g.name)).Nodup := by
  rcases insertField_names f acc with heq | ⟨heq, hnot⟩
  · rw [heq]; exact h
  · rw [heq]
    refine h.append (List.nodup_singleton _) ?_
    intro a ha hb
    rw [List.mem_singleton] at hb
    exact hnot (hb ▸ ha)

theorem foldl_insert_names_nodup (l : List StructField) (acc : List StructField)
    (h : (acc.map (fun g => g.name)).Nodup) :
    (((l.foldl (fun a f => insertField f a) acc)).map (fun g => g.name)).Nodup := by
  induction l generalizing acc with
  | nil => exact h
  | cons f rest ih => exact ih _ (insertField_names_nodup f acc h)

/-- Names in the output of the collision loop are pairwise distinct. -/
theorem resolveFields_names_nodup (l : List StructField) :
    ((resolveFields l).map (fun g => g.name)).Nodup :=
  foldl_insert_names_nodup l [] List.nodup_nil

/-- Names yielded by `struct_fields_iter` are pairwise distinct. -/
theorem struct_fields_iter_names_nodup (b : ApiObjectBuilder) :
    ((struct_fields_iter b).map (fun g => g.name)).Nodup :=
  resolveFields_names_nodup _

/-- Agreement on everything the collision loop never modifies. -/
def coreEq (e g : StructField) : Prop :=
  e.name = g.name ∧ e.ty = g.ty ∧ e.prop = g.prop ∧ e.desc = g.desc ∧
    e.strict_children = g.strict_children ∧ e.param_loc = g.param_loc

theorem coreEq_refl (e : StructField) : coreEq e e :=
  ⟨rfl, rfl, rfl, rfl, rfl, rfl⟩

theorem coreEq_trans {a b c : StructField} (h₁ : coreEq a b) (h₂ : coreEq b c) : coreEq a c := by
  obtain ⟨n₁, t₁, p₁, d₁, s₁, l₁⟩ := h₁
  obtain ⟨n₂, t₂, p₂, d₂, s₂, l₂⟩ := h₂
  exact ⟨n₁.trans n₂, t₁.trans t₂, p₁.trans p₂, d₁.trans d₂, s₁.trans s₂, l₁.trans l₂⟩

theorem coreEq_override (g : StructField) : coreEq { g with overridden := true } g :=
  ⟨rfl, rfl, rfl, rfl, rfl, rfl⟩

theorem mem_insertField_src (e f : StructField) (acc : List StructField)
    (h : e ∈ insertField f acc) :
    (∃ g ∈ acc, coreEq e g) ∨ e = f := by
  induction acc with
  | nil =>
    simp only [insertField, List.mem_singleton] at h
    right; exact h
  | cons g rest ih =>
    by_cases hgf : g.name = f.name
    · simp only [insertField, if_pos hgf, List.mem_cons] at h
      rcases h with h | h
      · left
        refine ⟨g, List.mem_cons_self _ _, ?_⟩
        by_cases hty : g.ty = f.ty
        · rw [h, if_pos hty]; exact coreEq_override g
        · rw [h, if_neg hty]; exact coreEq_refl g
      · left; exact ⟨e, List.mem_cons_of_mem _ h, coreEq_refl e⟩
    · simp only [insertField, if_neg hgf, List.mem_cons] at h
      rcases h with h | h
      · left; exact ⟨g, List.mem_cons_self _ _, h ▸ coreEq_refl e⟩
      · rcases ih h with ⟨g', hg', hc⟩ | he
        · left; exact ⟨g', List.mem_cons_of_mem _ hg', hc⟩
        · right; exact he

theorem mem_foldl_insert_src (l : List StructField) (acc : List StructField)
    (e : StructField) (h : e ∈ l.foldl (fun a f => insertField f a) acc) :
    (∃ g ∈ acc, coreEq e g) ∨ (∃ g ∈ l, coreEq e g) := by
  induction l generalizing acc with
  | nil => left; exact ⟨e, h, coreEq_refl e⟩
  | cons f rest ih =>
    rcases ih (insertField f acc) h with ⟨g, hg, hc⟩ | ⟨g, hg, hc⟩
    · rcases mem_insertField_src g f acc hg with ⟨g', hg', hc'⟩ | rfl
      · left; exact ⟨g', hg', coreEq_trans hc hc'⟩
      · right; exact ⟨g, List.mem_cons_self _ _, hc⟩
    · right; exact ⟨g, List.mem_cons_of_mem _ hg, hc⟩

/-- Every entry of the collision loop's output agrees with some input entry
on everything except possibly the `overridden` flag. -/
theorem mem_resolveFields_src (l : List StructField) (e : StructField)
    (h : e ∈ resolveFields l) : ∃ g ∈ l, coreEq e g := by
  rcases mem_foldl_insert_src l [] e h with ⟨g, hg, _⟩ | hsrc
  · cases hg
  · exact hsrc

/-- Split a list with pairwise-distinct names at a member: nothing before or
after it shares its name. -/
theorem exists_decomp_of_mem_nodup (l : List StructField) (e : StructField)
    (hn : (l.map (fun f => f.name)).Nodup) (he : e ∈ l) :
    ∃ l₁ l₂, l = l₁ ++ e :: l₂ ∧ (∀ x ∈ l₁, x.name ≠ e.name) ∧
      (∀ x ∈ l₂, x.name ≠ e.name) := by
  obtain ⟨l₁, l₂, rfl⟩ := List.append_of_mem he
  refine ⟨l₁, l₂, rfl, ?_, ?_⟩
  · intro x hx hEq
    rw [List.map_append, List.map_cons] at hn
    have hdisj := (List.nodup_append.mp hn).2.2
    exact hdisj (List.mem_map_of_mem _ hx) (hEq ▸ List.mem_cons_self _ _)
  · intro x hx hEq
    rw [List.map_append, List.map_cons] at hn
    have htail := (List.nodup_append.mp hn).2.1
    rw [List.nodup_cons] at htail
    exact htail.1 (hEq ▸ List.mem_map_of_mem (fun f => f.name) hx)

theorem dedupParams_not_mem_seen (seen : List String) (l : List Parameter) :
    ∀ f ∈ dedupParams seen l, f.name ∉ seen := by
  induction l generalizing seen with
  | nil => intro f hf; cases hf
  | cons p rest ih =>
    intro f hf
    by_cases h : p.name ∈ seen
    · rw [dedupParams, if_pos h] at hf
      exact ih seen f hf
    · rw [dedupParams, if_neg h] at hf
      rcases List.mem_cons.mp hf with rfl | hf'
      · exact h
      · intro hseen
        exact ih (p.name :: seen) f hf' (List.mem_cons_of_mem _ hseen)

theorem dedupParams_names_nodup (l : List Parameter) (seen : List String) :
    ((dedupParams seen l).map (fun f => f.name)).Nodup := by
  induction l generalizing seen with
  | nil => simp [dedupParams]
  | cons p rest ih =>
    by_cases h : p.name ∈ seen
    · rw [dedupParams, if_pos h]; exact ih seen
    · rw [dedupParams, if_neg h]
      rw [List.map_cons, List.nodup_cons]
      refine ⟨?_, ih (p.name :: seen)⟩
      intro hmem
      obtain ⟨f, hf, hname⟩ := List.mem_map.mp hmem
      exact dedupParams_not_mem_seen _ _ f hf (by rw [hname]; exact List.mem_cons_self _ _)

theorem paramStructFields_names_nodup (b : ApiObjectBuilder) :
    ((paramStructFields b).map (fun f => f.name)).Nodup :=
  dedupParams_names_nodup _ []

theorem dedupParams_mem_src (seen : List String) (l : List Parameter)
    (f : StructField) (hf : f ∈ dedupParams seen l) :
    ∃ p ∈ l, f = mkParamStructField p := by
  induction l generalizing seen with
  | nil => cases hf
  | cons p rest ih =>
    by_cases h : p.name ∈ seen
    · rw [dedupParams, if_pos h] at hf
      obtain ⟨p', hp', rfl⟩ := ih seen hf
      exact ⟨p', List.mem_cons_of_mem _ hp', rfl⟩
    · rw [dedupParams, if_neg h] at hf
      rcases List.mem_cons.mp hf with rfl | hf'
      · exact ⟨p, List.mem_cons_self _ _, rfl⟩
      · obtain ⟨p', hp', rfl⟩ := ih (p.name :: seen) hf'
        exact ⟨p', List.mem_cons_of_mem _ hp', rfl⟩

/-- A parameter-derived `StructField` has a parameter kind, no collision flag
set and a location. -/
theorem paramStructFields_shape (b : ApiObjectBuilder) (f : StructField)
    (hf : f ∈ paramStructFields b) :
    f.prop.is_parameter = true ∧ f.overridden = false ∧
      ∃ p ∈ b.global_params ++ b.local_params,
        f = mkParamStructField p ∧ f.param_loc = some p.presence := by
  obtain ⟨p, hp, rfl⟩ := dedupParams_mem_src [] _ f hf
  refine ⟨?_, rfl, p, hp, rfl, rfl⟩
  by_cases hr : p.required <;> simp [mkParamStructField, Property.is_parameter, hr]

theorem any_matchFn_false (l : List StructField) (n ty : String)
    (h : ∀ x ∈ l, x.name ≠ n) :
    l.any (fun f => decide (f.name = n) && decide (ty = f.ty)) = false := by
  induction l with
  | nil => rfl
  | cons f rest ih =>
    simp only [List.any_cons, decide_eq_false (h f (List.mem_cons_self _ _)),
      Bool.false_and, Bool.false_or]
    exact ih (fun x hx => h x (List.mem_cons_of_mem _ hx))

/-- The unified entry kept for a surviving parameter is the parameter's own
`StructField`, `overridden` set exactly when some object field shares both
its name and its type. -/
theorem lookup_param_entry (b : ApiObjectBuilder) (pf : StructField)
    (hpf : pf ∈ paramStructFields b) :
    lookupName pf.name (struct_fields_iter b) =
      some (setOver pf ((fieldStructFields b).any
        (fun f => decide (f.name = pf.name) && decide (pf.ty = f.ty)))) := by
  obtain ⟨p₁, p₂, hdecomp, h₁, h₂⟩ :=
    exists_decomp_of_mem_nodup _ pf (paramStructFields_names_nodup b) hpf
  have hsfi : struct_fields_iter b =
      resolveFields (p₁ ++ pf :: (p₂ ++ fieldStructFields b)) := by
    rw [struct_fields_iter, hdecomp]
    simp [List.append_assoc]
  rw [hsfi, lookup_resolve pf p₁ _ h₁, List.any_append,
    any_matchFn_false p₂ pf.name pf.ty h₂, Bool.false_or]

/-- C9: within one builder's unified field list, the names yielded by
`struct_fields_iter` are pairwise distinct - no two yielded `StructField`s
share a name. -/
theorem C9_unified_names_unique (b : ApiObjectBuilder) :
    ((struct_fields_iter b).map (fun f => f.name)).Nodup :=
  struct_fields_iter_names_nodup b

/-- C6: a unified entry derived from an object field has kind
`RequiredField` only when the builder's body is required and the schema
marks the field required; when the body is not required, every
field-derived entry is `OptionalField` even if the schema marks the field
mandatory. -/
theorem C6_required_field_needs_required_body (b : ApiObjectBuilder) (e : StructField)
    (he : e ∈ struct_fields_iter b) (hf : e.prop.is_field = true) :
    (e.prop = Property.requiredField →
      b.body_required = true ∧ ∃ fld ∈ b.fields, fld.name = e.name ∧ fld.is_required = true) ∧
    (b.body_required = false → e.prop = Property.optionalField) := by
  obtain ⟨g, hg, hc⟩ := mem_resolveFields_src _ e he
  rcases List.mem_append.mp hg with hgp | hgf
  · exfalso
    have hpar := (paramStructFields_shape b g hgp).1
    rw [hc.2.2.1] at hf
    revert hf hpar
    cases g.prop <;> simp [Property.is_field, Property.is_parameter]
  · obtain ⟨fld, hfld, rfl⟩ := List.mem_map.mp hgf
    have hprop : e.prop =
        (if b.body_required && fld.is_required then Property.requiredField
         else Property.optionalField) := hc.2.2.1
    have hname : e.name = fld.name := hc.1
    constructor
    · intro hreq
      rw [hreq] at hprop
      cases hbb : b.body_required with
      | false => simp [hbb] at hprop
      | true =>
        cases hrr : fld.is_required with
        | false => simp [hbb, hrr] at hprop
        | true => exact ⟨rfl, fld, hfld, hname.symm, hrr⟩
    · intro hbr
      simp [hprop, hbr]

/-- Witness inputs: a body-optional builder whose single object field is
marked required by the schema. -/
def c6_field : ObjectField :=
  { name := "a", ty_path := "T", description := none, is_required := true,
    boxed := false, children_req := [] }

def c6_builder : ApiObjectBuilder :=
  { idx := 0, multiple_builders_exist := false, base_path := "", rel_path := none,
    helper_module_pfx := "", op_id := none, method := none, description := none,
    object := "O", body_required := false, fields := [c6_field],
    global_params := [], local_params := [], response := none }

def c6_entry : StructField :=
  { name := "a", ty := "T", prop := .optionalField, desc := none,
    overridden := false, strict_children := [], param_loc := none }

theorem C6_witness :
    c6_entry ∈ struct_fields_iter c6_builder ∧ c6_entry.prop.is_field = true ∧
    ((c6_entry.prop = Property.requiredField →
        c6_builder.body_required = true ∧
          ∃ fld ∈ c6_builder.fields, fld.name = c6_entry.name ∧ fld.is_required = true) ∧
      (c6_builder.body_required = false → c6_entry.prop = Property.optionalField)) :=
  ⟨by decide, by decide,
    C6_required_field_needs_required_body c6_builder c6_entry (by decide) (by decide)⟩

/-- Inputs for C2: a path-shared (global) parameter and an operation-specific
(local) parameter with the same name `x` but distinguishable types and
requiredness. -/
def c2_global_param : Parameter :=
  { name := "x", description := none, ty_path := "String", required := false,
    presence := .query }

def c2_local_param : Parameter :=
  { name := "x", description := none, ty_path := "i64", required := true,
    presence := .query }

def c2_builder : ApiObjectBuilder :=
  { idx := 0, multiple_builders_exist := false, base_path := "", rel_path := none,
    helper_module_pfx := "", op_id := none, method := none, description := none,
    object := "O", body_required := false, fields := [],
    global_params := [c2_global_param], local_params := [c2_local_param],
    response := none }

/-- C2 (evidence of the code bug): with a path-shared and an
operation-specific parameter both named `x`, the unified list keeps the
path-shared entry (type `String`, optional) and silently drops the
operation-specific one (type `i64`, required) - the opposite of the claim
and of the source's own doc comment on `struct_fields_iter` ("the latter
overrides the former") and its inline comment on the scan ("Local
parameters override global parameters"): the scan chains global parameters
first and keeps the first occurrence of a name. -/
theorem C2_path_shared_param_wins :
    (struct_fields_iter c2_builder).map (fun e => (e.name, e.ty, e.prop)) =
      [("x", "String", Property.optionalParam)] := by decide

/-- C1: the setter generated for a `RequiredField`/`RequiredParam` unified
field returns the builder type whose generics replace exactly that field's
phantom parameter (its name occurs exactly once among the required fields)
by its `Exists` marker, all other generic tokens written unchanged, and the
method body returns a transmuted `self`; the setter for an
`OptionalField`/`OptionalParam` field has return type `Self` and returns
`self` without a transmute. -/
theorem C1_setter_return_types (b : ApiObjectBuilder) (f : StructField)
    (hmem : f ∈ struct_fields_iter b) :
    (f.prop.is_required = true →
      (write_property_method b f).return_ty =
        SetterReturn.builderTy ((requiredFields b).map (fun g =>
          if g.name = f.name then exists_marker b g.name else to_camel_case g.name)) ∧
      ((requiredFields b).map (fun g => g.name)).count f.name = 1 ∧
      (write_property_method b f).transmutes = true) ∧
    (f.prop.is_required = false →
      (write_property_method b f).return_ty = SetterReturn.selfTy ∧
      (write_property_method b f).transmutes = false) := by
  constructor
  · intro hreq
    refine ⟨?_, ?_, ?_⟩
    · simp [write_property_method, hreq, write_generics, genericToken]
    · have hmemreq : f ∈ requiredFields b := List.mem_filter.mpr ⟨hmem, hreq⟩
      have hsub : List.Sublist ((requiredFields b).map (fun g => g.name))
          ((struct_fields_iter b).map (fun g => g.name)) :=
        (List.filter_sublist _).map _
      have hnodup : ((requiredFields b).map (fun g => g.name)).Nodup :=
        List.Nodup.sublist hsub (struct_fields_iter_names_nodup b)
      exact List.count_eq_one_of_mem hnodup (List.mem_map_of_mem _ hmemreq)
    · simp [write_property_method, hreq]
  · intro hreq
    constructor <;> simp [write_property_method, hreq]

/-- Witness inputs: a body-required builder with one mandatory and one
optional object field. -/
def c1_field_id : ObjectField :=
  { name := "id", ty_path := "String", description := none, is_required := true,
    boxed := false, children_req := [] }

def c1_field_tag : ObjectField :=
  { name := "tag", ty_path := "String", description := none, is_required := false,
    boxed := false, children_req := [] }

def c1_builder : ApiObjectBuilder :=
  { idx := 0, multiple_builders_exist := false, base_path := "", rel_path := none,
    helper_module_pfx := "codegen::", op_id := none, method := none, description := none,
    object := "Pet", body_required := true, fields := [c1_field_id, c1_field_tag],
    global_params := [], local_params := [], response := none }

def c1_entry : StructField :=
  { name := "id", ty := "String", prop := .requiredField, desc := none,
    overridden := false, strict_children := [], param_loc := none }

theorem C1_witness :
    c1_entry ∈ struct_fields_iter c1_builder ∧
    ((c1_entry.prop.is_required = true →
      (write_property_method c1_builder c1_entry).return_ty =
        SetterReturn.builderTy ((requiredFields c1_builder).map (fun g =>
          if g.name = c1_entry.name then exists_marker c1_builder g.name
          else to_camel_case g.name)) ∧
      ((requiredFields c1_builder).map (fun g => g.name)).count c1_entry.name = 1 ∧
      (write_property_method c1_builder c1_entry).transmutes = true) ∧
    (c1_entry.prop.is_required = false →
      (write_property_method c1_builder c1_entry).return_ty = SetterReturn.selfTy ∧
      (write_property_method c1_builder c1_entry).transmutes = false)) :=
  ⟨by decide, C1_setter_return_types c1_builder c1_entry (by decide)⟩

/-- C4: when a surviving parameter and an object field share both name and
declared type, the unified list keeps a single entry derived from the
parameter - same name, type and kind - with `overridden = true`; and when
the body is required, the setter generated for that entry writes to the
parameter slot and also copies the converted value into the body field of
the same name. -/
theorem C4_overridden_collision_updates_both (b : ApiObjectBuilder) (pf : StructField)
    (fld : ObjectField) (hpf : pf ∈ paramStructFields b) (hfld : fld ∈ b.fields)
    (hname : fld.name = pf.name) (hty : fld.ty_path = pf.ty) :
    ∃ e ∈ struct_fields_iter b,
      e.name = pf.name ∧ e.ty = pf.ty ∧ e.prop = pf.prop ∧
      pf.prop.is_parameter = true ∧ e.overridden = true ∧
      (∀ e2 ∈ struct_fields_iter b, e2.name = pf.name → e2 = e) ∧
      (b.body_required = true →
        (write_property_method b e).slot = SlotKind.param ∧
        (write_property_method b e).copies_to_body = true) := by
  have hlookup := lookup_param_entry b pf hpf
  have hany : (fieldStructFields b).any
      (fun f => decide (f.name = pf.name) && decide (pf.ty = f.ty)) = true := by
    rw [List.any_eq_true]
    refine ⟨mkFieldStructField b.body_required fld, List.mem_map_of_mem _ hfld, ?_⟩
    simp [mkFieldStructField, hname, hty]
  rw [hany] at hlookup
  refine ⟨setOver pf true, mem_of_lookupName _ _ _ hlookup, rfl, rfl, rfl,
    (paramStructFields_shape b pf hpf).1, ?_, ?_, ?_⟩
  · simp [setOver]
  · intro e2 he2 hn2
    have hl2 := lookupName_of_mem_nodup _ e2 (struct_fields_iter_names_nodup b) he2
    rw [hn2] at hl2
    rw [hl2] at hlookup
    exact Option.some_inj.mp hlookup
  · intro hbr
    constructor
    · simp [write_property_method, setOver, (paramStructFields_shape b pf hpf).1]
    · simp [write_property_method, setOver, hbr]

/-- Witness inputs: a builder whose query parameter `name` collides with an
object field `name` of the same declared type. -/
def c4_param : Parameter :=
  { name := "name", description := none, ty_path := "String", required := false,
    presence := .query }

def c4_field : ObjectField :=
  { name := "name", ty_path := "String", description := none, is_required := false,
    boxed := false, children_req := [] }

def c4_builder : ApiObjectBuilder :=
  { idx := 0, multiple_builders_exist := false, base_path := "", rel_path := none,
    helper_module_pfx := "", op_id := none, method := none, description := none,
    object := "O", body_required := true, fields := [c4_field],
    global_params := [], local_params := [c4_param], response := none }

def c4_entry : StructField :=
  { name := "name", ty := "String", prop := .optionalParam, desc := none,
    overridden := false, strict_children := [], param_loc := some .query }

theorem C4_witness :
    c4_entry ∈ paramStructFields c4_builder ∧ c4_field ∈ c4_builder.fields ∧
    c4_field.name = c4_entry.name ∧ c4_field.ty_path = c4_entry.ty ∧
    (∃ e ∈ struct_fields_iter c4_builder,
      e.name = c4_entry.name ∧ e.ty = c4_entry.ty ∧ e.prop = c4_entry.prop ∧
      c4_entry.prop.is_parameter = true ∧ e.overridden = true ∧
      (∀ e2 ∈ struct_fields_iter c4_builder, e2.name = c4_entry.name → e2 = e) ∧
      (c4_builder.body_required = true →
        (write_property_method c4_builder e).slot = SlotKind.param ∧
        (write_property_method c4_builder e).copies_to_body = true)) :=
  ⟨by decide, by decide, by decide, by decide,
    C4_overridden_collision_updates_both c4_builder c4_entry c4_field
      (by decide) (by decide) (by decide) (by decide)⟩

/-- C8: when a surviving parameter and an object field share a name but every
same-named field has a different declared type, the kept unified entry is
exactly the parameter's (in particular `overridden = false`), it is the only
entry with that name, and the field's entry - with its different type - is
dropped with no diagnostic (the unifier is total and has no error channel). -/
theorem C8_type_mismatch_drops_silently (b : ApiObjectBuilder) (pf : StructField)
    (fld : ObjectField) (hpf : pf ∈ paramStructFields b) (hfld : fld ∈ b.fields)
    (hname : fld.name = pf.name)
    (hall : ∀ f ∈ b.fields, f.name = pf.name → f.ty_path ≠ pf.ty) :
    pf ∈ struct_fields_iter b ∧ pf.overridden = false ∧
      (∀ e ∈ struct_fields_iter b, e.name = pf.name → e = pf) ∧
      pf.ty ≠ fld.ty_path := by
  have hlookup := lookup_param_entry b pf hpf
  have hany : (fieldStructFields b).any
      (fun f => decide (f.name = pf.name) && decide (pf.ty = f.ty)) = false := by
    rw [Bool.eq_false_iff]
    intro htrue
    rw [List.any_eq_true] at htrue
    obtain ⟨g, hg, hpred⟩ := htrue
    obtain ⟨f', hf', rfl⟩ := List.mem_map.mp hg
    simp only [mkFieldStructField, Bool.and_eq_true, decide_eq_true_eq] at hpred
    exact hall f' hf' hpred.1 hpred.2.symm
  rw [hany, setOver_false] at hlookup
  refine ⟨mem_of_lookupName _ _ _ hlookup, (paramStructFields_shape b pf hpf).2.1, ?_, ?_⟩
  · intro e he hn
    have hl2 := lookupName_of_mem_nodup _ e (struct_fields_iter_names_nodup b) he
    rw [hn] at hl2
    rw [hl2] at hlookup
    exact Option.some_inj.mp hlookup
  · intro hEq
    exact hall fld hfld hname hEq.symm

/-- Witness inputs: parameter `name: i64` against object field
`name: String`. -/
def c8_param : Parameter :=
  { name := "name", description := none, ty_path := "i64", required := false,
    presence := .query }

def c8_field : ObjectField :=
  { name := "name", ty_path := "String", description := none, is_required := false,
    boxed := false, children_req := [] }

def c8_builder : ApiObjectBuilder :=
  { idx := 0, multiple_builders_exist := false, base_path := "", rel_path := none,
    helper_module_pfx := "", op_id := none, method := none, description := none,
    object := "O", body_required := true, fields := [c8_field],
    global_params := [], local_params := [c8_param], response := none }

def c8_entry : StructField :=
  { name := "name", ty := "i64", prop := .optionalParam, desc := none,
    overridden := false, strict_children := [], param_loc := some .query }

theorem C8_witness :
    c8_entry ∈ paramStructFields c8_builder ∧ c8_field ∈ c8_builder.fields ∧
    c8_field.name = c8_entry.name ∧
    (∀ f ∈ c8_builder.fields, f.name = c8_entry.name → f.ty_path ≠ c8_entry.ty) ∧
    (c8_entry ∈ struct_fields_iter c8_builder ∧ c8_entry.overridden = false ∧
      (∀ e ∈ struct_fields_iter c8_builder, e.name = c8_entry.name → e = c8_entry) ∧
      c8_entry.ty ≠ c8_field.ty_path) :=
  ⟨by decide, by decide, by decide, by decide,
    C8_type_mismatch_drops_silently c8_builder c8_entry c8_field
      (by decide) (by decide) (by decide) (by decide)⟩

/-- C5: `needs_container` returns true exactly when some required parameter
exists or the body is required together with some schema-required object
field; `#[repr(transparent)]` is emitted on the builder struct exactly when
it returns true, and then the builder struct consists of the single `inner`
container field followed only by zero-sized phantom markers, while the body
and every parameter slot live in the emitted container struct. -/
theorem C5_container_condition_and_layout (b : ApiObjectBuilder) :
    (needs_container b = true ↔
      (∃ p ∈ b.local_params ++ b.global_params, p.required = true) ∨
        (b.body_required = true ∧ ∃ fld ∈ b.fields, fld.is_required = true)) ∧
    (emit_builder_struct b).repr_transparent = needs_container b ∧
    (needs_container b = true →
      (emit_builder_struct b).container = some (container_struct_fields b) ∧
      (∃ rest, (emit_builder_struct b).fields = BuilderField.inner :: rest ∧
        ∀ x ∈ rest, ∃ nm isP, x = BuilderField.phantom nm isP) ∧
      (b.body_required = true → BuilderField.body b.object ∈ container_struct_fields b) ∧
      (∀ f ∈ struct_fields_iter b, f.prop.is_parameter = true →
        BuilderField.paramSlot (to_snek_case f.name) f.ty ∈ container_struct_fields b)) := by
  refine ⟨?_, rfl, ?_⟩
  · unfold needs_container
    simp only [List.any_eq_true, Bool.or_eq_true, Bool.and_eq_true, List.mem_append,
      decide_eq_true_eq]
  · intro hnc
    refine ⟨by simp [emit_builder_struct, hnc], ?_, ?_, ?_⟩
    · refine ⟨((struct_fields_iter b).map (fun f =>
          if f.prop.is_required = true then
            [BuilderField.phantom (to_snek_case f.name) f.prop.is_parameter]
          else [])).flatten, ?_, ?_⟩
      · simp [emit_builder_struct, builder_struct_fields, hnc]
      · intro x hx
        rw [List.mem_flatten] at hx
        obtain ⟨s, hs, hxs⟩ := hx
        rw [List.mem_map] at hs
        obtain ⟨f, hf, rfl⟩ := hs
        by_cases hr : f.prop.is_required = true
        · rw [if_pos hr, List.mem_singleton] at hxs
          exact ⟨_, _, hxs⟩
        · rw [if_neg hr] at hxs
          cases hxs
    · intro hbr
      simp [container_struct_fields, hbr]
    · intro f hf hp
      have hmem : BuilderField.paramSlot (to_snek_case f.name) f.ty ∈
          ((struct_fields_iter b).map (fun f =>
            write_parameter_if_required f.prop (to_snek_case f.name) f.ty)).flatten := by
        rw [List.mem_flatten]
        exact ⟨_, List.mem_map_of_mem _ hf, by simp [write_parameter_if_required, hp]⟩
      unfold container_struct_fields
      exact List.mem_append_right _ hmem

/-- Witness inputs: a builder with one required path parameter, so a
container is needed. -/
def c5_param : Parameter :=
  { name := "petId", description := none, ty_path := "i64", required := true,
    presence := .path }

def c5_builder : ApiObjectBuilder :=
  { idx := 0, multiple_builders_exist := false, base_path := "", rel_path := none,
    helper_module_pfx := "", op_id := none, method := none, description := none,
    object := "Pet", body_required := true, fields := [c1_field_tag],
    global_params := [], local_params := [c5_param], response := none }

theorem C5_witness :
    (needs_container c5_builder = true ↔
      (∃ p ∈ c5_builder.local_params ++ c5_builder.global_params, p.required = true) ∨
        (c5_builder.body_required = true ∧
          ∃ fld ∈ c5_builder.fields, fld.is_required = true)) ∧
    (emit_builder_struct c5_builder).repr_transparent = needs_container c5_builder ∧
    (needs_container c5_builder = true →
      (emit_builder_struct c5_builder).container = some (container_struct_fields c5_builder) ∧
      (∃ rest, (emit_builder_struct c5_builder).fields = BuilderField.inner :: rest ∧
        ∀ x ∈ rest, ∃ nm isP, x = BuilderField.phantom nm isP) ∧
      (c5_builder.body_required = true →
        BuilderField.body c5_builder.object ∈ container_struct_fields c5_builder) ∧
      (∀ f ∈ struct_fields_iter c5_builder, f.prop.is_parameter = true →
        BuilderField.paramSlot (to_snek_case f.name) f.ty ∈ container_struct_fields c5_builder)) :=
  C5_container_condition_and_layout c5_builder

/-- The constructor-name rule exactly as claim C3 states it: the lower-cased
method token when exactly one builder exists for this HTTP method across all
of the object's builders, else a name derived from the operation identifier,
else the method token with the path-ordinal suffix. -/
def con_fn_name_claimed (o : ApiObject) (hp bp : String) (b : ApiObjectBuilder) :
    Option String :=
  match b.method with
  | some m =>
    if ((ApiObject.builders o hp bp).filter (fun b2 => b2.method == some m)).length = 1 then
      some (to_snek_case m.toStr)
    else
      match b.op_id with
      | some id => some (to_snek_case id)
      | none =>
        some (to_snek_case m.toStr ++ (if b.idx > 0 then "_" ++ toString b.idx else ""))
  | none => none

def c3_req_post : OpRequirement :=
  { id := none, description := none, params := [], body_required := true,
    response_ty_path := none }

def c3_req_get : OpRequirement :=
  { id := none, description := none, params := [], body_required := false,
    response_ty_path := none }

def c3_ops_a : PathOps := { req := [(HttpMethod.post, c3_req_post)], params := [] }

def c3_ops_b : PathOps := { req := [(HttpMethod.get, c3_req_get)], params := [] }

def c3_object : ApiObject :=
  { name := "Obj", description := none, path := "", fields := [],
    paths := [("/a", c3_ops_a), ("/b", c3_ops_b)] }

/-- C3 (counterexample): in `c3_object` exactly one builder exists for the
`GET` method, so the claim's rule names its constructor `get`; the code's
`multiple_builders_exist` counts the operations of every method (here 2), so
`con_fn_name` falls through to the ordinal rule and emits `get_1`. -/
theorem C3_counterexample :
    ∃ b ∈ ApiObject.builders c3_object "" "",
      b.method = some HttpMethod.get ∧
      con_fn_name_claimed c3_object "" "" b = some "get" ∧
      con_fn_name b = some "get_1" := by decide

/-- C3 (amended): for every operation-bound builder produced by
`ApiObject::builders`, the constructor name is derived in this priority
order: when the object has at most one operation in total (across all paths
and methods, which is what `multiple_builders_exist` records), the
lower-cased method token; otherwise, when the operation has an explicit
identifier, the snake-cased identifier; otherwise the method token with a
numeric suffix equal to the zero-based ordinal of the builder's path among
the object's paths, ordinal 0 left unsuffixed. -/
theorem C3_amended_con_fn_name (o : ApiObject) (hp bp : String) (i : Nat) (path : String)
    (ops : PathOps) (m : HttpMethod) (req : OpRequirement)
    (hpath : (i, (path, ops)) ∈ o.paths.enum) (hop : (m, req) ∈ ops.req) :
    ∃ b ∈ ApiObject.builders o hp bp,
      b.method = some m ∧ b.op_id = req.id ∧ b.rel_path = some path ∧ b.idx = i ∧
      con_fn_name b = some (
        if totalOpCount o ≤ 1 then to_snek_case m.toStr
        else
          match req.id with
          | some id => to_snek_case id
          | none => to_snek_case m.toStr ++ (if i > 0 then "_" ++ toString i else "")) := by
  refine ⟨mkPathBuilder o hp bp (totalOpCount o) i path ops m req, ?_, rfl, rfl, rfl, rfl, ?_⟩
  · unfold ApiObject.builders
    refine List.mem_cons_of_mem _ (List.mem_flatMap.mpr ⟨(i, (path, ops)), hpath, ?_⟩)
    exact List.mem_map.mpr ⟨(m, req), hop, rfl⟩
  · by_cases hcount : totalOpCount o ≤ 1
    · have hm2 : decide (totalOpCount o > 1) = false :=
        decide_eq_false (Nat.not_lt.mpr hcount)
    
      cases hid : req.id <;>
        simp [con_fn_name, mkPathBuilder, hm2, hid, hcount]
    · have hm2 : decide (totalOpCount o > 1) = true :=
        decide_eq_true (Nat.not_le.mp hcount)
      cases hid : req.id <;>
        simp [con_fn_name, mkPathBuilder, hm2, hid, hcount]

theorem C3_amended_witness :
    (1, ("/b", c3_ops_b)) ∈ c3_object.paths.enum ∧
    (HttpMethod.get, c3_req_get) ∈ c3_ops_b.req ∧
    (∃ b ∈ ApiObject.builders c3_object "" "",
      b.method = some HttpMethod.get ∧ b.op_id = c3_req_get.id ∧
      b.rel_path = some "/b" ∧ b.idx = 1 ∧
      con_fn_name b = some (
        if totalOpCount c3_object ≤ 1 then to_snek_case HttpMethod.get.toStr
        else
          match c3_req_get.id with
          | some id => to_snek_case id
          | none =>
            to_snek_case HttpMethod.get.toStr ++
              (if 1 > 0 then "_" ++ toString 1 else ""))) :=
  ⟨by decide, by decide,
    C3_amended_con_fn_name c3_object "" "" 1 "/b" c3_ops_b HttpMethod.get c3_req_get
      (by decide) (by decide)⟩

theorem substPathParams_ok_of_all_set (names : List String) (slots : String → Option String)
    (h : ∀ n ∈ names, slots n ≠ none) :
    ∃ l, substPathParams names slots = Except.ok l := by
  induction names with
  | nil => exact ⟨[], rfl⟩
  | cons n rest ih =>
    cases hs : slots n with
    | none => exact absurd hs (h n (List.mem_cons_self _ _))
    | some v =>
      obtain ⟨l, hl⟩ := ih (fun x hx => h x (List.mem_cons_of_mem _ hx))
      exact ⟨(n, v) :: l, by simp [substPathParams, hs, hl, Except.map]⟩

theorem substPathParams_error_of_unset (names : List String) (slots : String → Option String)
    (n : String) (hn : n ∈ names) (hs : slots n = none) :
    ∃ msg, substPathParams names slots = Except.error msg := by
  induction names with
  | nil => cases hn
  | cons m rest ih =>
    cases hsm : slots m with
    | none => exact ⟨"missing parameter " ++ m ++ "?", by simp [substPathParams, hsm]⟩
    | some v =>
      rcases List.mem_cons.mp hn with rfl | hn'
      · rw [hs] at hsm; cases hsm
      · obtain ⟨msg, hmsg⟩ := ih hn'
        exact ⟨msg, by simp [substPathParams, hsm, hmsg, Except.map]⟩

theorem substPathParams_unset_of_error (names : List String) (slots : String → Option String)
    (msg : String) (h : substPathParams names slots = Except.error msg) :
    ∃ n ∈ names, slots n = none := by
  induction names generalizing msg with
  | nil => cases h
  | cons m rest ih =>
    cases hsm : slots m with
    | none => exact ⟨m, List.mem_cons_self _ _, hsm⟩
    | some v =>
      rw [substPathParams] at h
      rw [hsm] at h
      cases hr : substPathParams rest slots with
      | ok l => rw [hr] at h; cases h
      | error msg2 =>
        obtain ⟨n, hn, hns⟩ := ih msg2 hr
        exact ⟨n, List.mem_cons_of_mem _ hn, hns⟩

theorem query_foldl_eq_filter (l : List StructField) (acc : List String) :
    l.foldl (fun q f => if f.param_loc = some ParameterIn.query then q ++ [f.name] else q) acc =
      acc ++ (l.filter (fun f => f.param_loc == some ParameterIn.query)).map (fun f => f.name) := by
  induction l generalizing acc with
  | nil => simp
  | cons f rest ih =>
    by_cases h : f.param_loc = some ParameterIn.query
    · rw [List.foldl_cons, if_pos h, ih]
      simp [List.filter_cons, h]
    · rw [List.foldl_cons, if_neg h, ih]
      simp [List.filter_cons, h]

theorem query_names_eq (b : ApiObjectBuilder) :
    query_names b = ((struct_fields_iter b).filter
      (fun f => f.param_loc == some ParameterIn.query)).map (fun f => f.name) := by
  rw [query_names, query_foldl_eq_filter, List.nil_append]

/-- C7: for a builder bound to a path and a method, the emitted `Sendable`
impl substitutes every path-located unified parameter into the URL template
`{base_path}{rel_path}` through an unconditional `expect` - assembly fails
with an error exactly when some path slot is unset and succeeds when all are
set - and a query-assembly section is emitted exactly when at least one
query-located parameter exists, pairing each query name with its
optional stringified value, `none` while unset. -/
theorem C7_url_substitution_and_query (b : ApiObjectBuilder) (p : String) (m : HttpMethod)
    (hp : b.rel_path = some p) (hm : b.method = some m) :
    ∃ d, write_sendable_impl_if_needed b = some d ∧
      d.method = m ∧
      d.url_template = b.base_path ++ p ∧
      d.path_params = ((struct_fields_iter b).filter
        (fun f => f.param_loc == some ParameterIn.path)).map (fun f => f.name) ∧
      (∀ slots : String → Option String,
        (∃ n ∈ d.path_params, slots n = none) →
          ∃ msg, eval_path_url d slots = Except.error msg) ∧
      (∀ slots : String → Option String,
        (∀ n ∈ d.path_params, slots n ≠ none) →
          ∃ url, eval_path_url d slots = Except.ok url) ∧
      (∀ slots msg, eval_path_url d slots = Except.error msg →
        ∃ n ∈ d.path_params, slots n = none) ∧
      (d.query_section = none ↔
        ¬ ∃ f ∈ struct_fields_iter b, f.param_loc = some ParameterIn.query) ∧
      (∀ l, d.query_section = some l →
        (∀ n, n ∈ l ↔ ∃ f ∈ struct_fields_iter b,
            f.param_loc = some ParameterIn.query ∧ f.name = n) ∧
        (∀ slots, eval_query_pairs l slots = l.map (fun n => (n, slots n)))) := by
  have hd : write_sendable_impl_if_needed b =
      some { output := b.response.getD b.object
             method := m
             url_template := b.base_path ++ p
             path_params := ((struct_fields_iter b).filter
                 (fun f => f.param_loc == some ParameterIn.path)).map (fun f => f.name)
             query_section := if query_names b = [] then none else some (query_names b)
             via_inner := needs_container b } := by
    rw [write_sendable_impl_if_needed, hp, hm]
  refine ⟨_, hd, rfl, rfl, rfl, ?_, ?_, ?_, ?_, ?_⟩
  · intro slots ⟨n, hn, hs⟩
    obtain ⟨msg, hmsg⟩ := substPathParams_error_of_unset _ slots n hn hs
    exact ⟨msg, by simp [eval_path_url, hmsg, Except.map]⟩
  · intro slots hall
    obtain ⟨l, hl⟩ := substPathParams_ok_of_all_set _ slots hall
    exact ⟨l.foldl (fun url nv => url.replace ("\x7b" ++ nv.1 ++ "\x7d") nv.2)
        (b.base_path ++ p),
      by simp [eval_path_url, hl, Except.map]⟩
  · intro slots msg herr
    rw [eval_path_url] at herr
    cases hsub : substPathParams (((struct_fields_iter b).filter
        (fun f => f.param_loc == some ParameterIn.path)).map (fun f => f.name)) slots with
    | ok l => rw [hsub] at herr; cases herr
    | error msg2 => exact substPathParams_unset_of_error _ slots msg2 hsub
  · constructor
    · intro hnone ⟨f, hf, hq⟩
      by_cases hqn : query_names b = []
      · have : f.name ∈ query_names b := by
          rw [query_names_eq]
          exact List.mem_map_of_mem _ (List.mem_filter.mpr ⟨hf, by simp [hq]⟩)
        rw [hqn] at this
        cases this
      · rw [if_neg hqn] at hnone
        cases hnone
    · intro hno
      have hqn : query_names b = [] := by
        rw [query_names_eq, List.map_eq_nil_iff, List.filter_eq_nil_iff]
        intro f hf hq
        rw [beq_iff_eq] at hq
        exact hno ⟨f, hf, hq⟩
      rw [if_pos hqn]
  · intro l hl
    by_cases hqn : query_names b = []
    · rw [if_pos hqn] at hl; cases hl
    · rw [if_neg hqn, Option.some_inj] at hl
      subst hl
      refine ⟨?_, fun slots => rfl⟩
      intro n
      rw [query_names_eq]
      constructor
      · intro hn
        obtain ⟨f, hf, rfl⟩ := List.mem_map.mp hn
        have := List.mem_filter.mp hf
        exact ⟨f, this.1, by
          have := this.2
          rw [beq_iff_eq] at this
          exact this, rfl⟩
      · intro ⟨f, hf, hq, hn⟩
        exact hn ▸ List.mem_map_of_mem _ (List.mem_filter.mpr ⟨hf, by simp [hq]⟩)

/-- Witness inputs: an operation on `/items/{id}` with an optional path
parameter `id` and an optional query parameter `limit`. -/
def c7_param_id : Parameter :=
  { name := "id", description := none, ty_path := "i64", required := false,
    presence := .path }

def c7_param_limit : Parameter :=
  { name := "limit", description := none, ty_path := "i64", required := false,
    presence := .query }

def c7_builder : ApiObjectBuilder :=
  { idx := 0, multiple_builders_exist := false, base_path := "https://host",
    rel_path := some "/items/\x7bid\x7d", helper_module_pfx := "", op_id := none,
    method := some HttpMethod.get, description := none, object := "Item",
    body_required := false, fields := [], global_params := [],
    local_params := [c7_param_id, c7_param_limit], response := none }

theorem C7_witness :
    c7_builder.rel_path = some "/items/\x7bid\x7d" ∧
    c7_builder.method = some HttpMethod.get ∧
    (∃ d, write_sendable_impl_if_needed c7_builder = some d ∧
      d.method = HttpMethod.get ∧
      d.url_template = c7_builder.base_path ++ "/items/\x7bid\x7d" ∧
      d.path_params = ((struct_fields_iter c7_builder).filter
        (fun f => f.param_loc == some ParameterIn.path)).map (fun f => f.name) ∧
      (∀ slots : String → Option String,
        (∃ n ∈ d.path_params, slots n = none) →
          ∃ msg, eval_path_url d slots = Except.error msg) ∧
      (∀ slots : String → Option String,
        (∀ n ∈ d.path_params, slots n ≠ none) →
          ∃ url, eval_path_url d slots = Except.ok url) ∧
      (∀ slots msg, eval_path_url d slots = Except.error msg →
        ∃ n ∈ d.path_params, slots n = none) ∧
      (d.query_section = none ↔
        ¬ ∃ f ∈ struct_fields_iter c7_builder, f.param_loc = some ParameterIn.query) ∧
      (∀ l, d.query_section = some l →
        (∀ n, n ∈ l ↔ ∃ f ∈ struct_fields_iter c7_builder,
            f.param_loc = some ParameterIn.query ∧ f.name = n) ∧
        (∀ slots, eval_query_pairs l slots = l.map (fun n => (n, slots n))))) :=
  ⟨rfl, rfl,
    C7_url_substitution_and_query c7_builder "/items/\x7bid\x7d" HttpMethod.get rfl rfl⟩

/-- C10: `ApiObject::builders` always yields the bare builder first,
constructed with `body_required = true`, no method, no operation id, no
response, no relative path and empty parameter lists; consequently the
finalize-to-object conversion (`write_into_impl`) is always emitted for it,
and (for distinct field names) every schema-required object field becomes a
`RequiredField` entry of its unified list, hence a phantom type parameter in
its generics. -/
theorem C10_bare_builder_first (o : ApiObject) (hp bp : String) :
    ∃ rest, ApiObject.builders o hp bp = mainBuilder o hp bp :: rest ∧
    (mainBuilder o hp bp).body_required = true ∧
    (mainBuilder o hp bp).method = none ∧
    (mainBuilder o hp bp).op_id = none ∧
    (mainBuilder o hp bp).response = none ∧
    (mainBuilder o hp bp).rel_path = none ∧
    (mainBuilder o hp bp).global_params = [] ∧
    (mainBuilder o hp bp).local_params = [] ∧
    (mainBuilder o hp bp).fields = o.fields ∧
    (write_into_impl o (mainBuilder o hp bp)).isSome = true ∧
    ((o.fields.map (fun f => f.name)).Nodup →
      ∀ fld ∈ o.fields, fld.is_required = true →
        ∃ e ∈ struct_fields_iter (mainBuilder o hp bp),
          e.name = fld.name ∧ e.prop = Property.requiredField ∧
          to_camel_case e.name ∈
            write_generics (mainBuilder o hp bp) TypeParameters.generic) := by
  refine ⟨_, rfl, rfl, rfl, rfl, rfl, rfl, rfl, rfl, rfl, rfl, ?_⟩
  intro hnodup fld hfld hreq
  have hparams : paramStructFields (mainBuilder o hp bp) = [] := rfl
  have hmemsf : mkFieldStructField true fld ∈ fieldStructFields (mainBuilder o hp bp) :=
    List.mem_map_of_mem _ hfld
  have hnames : ((fieldStructFields (mainBuilder o hp bp)).map (fun f => f.name)).Nodup := by
    have heq : (fieldStructFields (mainBuilder o hp bp)).map (fun f => f.name) =
        o.fields.map (fun f => f.name) := by
      simp [fieldStructFields, mainBuilder, mkFieldStructField, List.map_map,
        Function.comp]
    rw [heq]
    exact hnodup
  obtain ⟨l₁, l₂, hdec, h₁, h₂⟩ :=
    exists_decomp_of_mem_nodup _ (mkFieldStructField true fld) hnames hmemsf
  have hsfi : struct_fields_iter (mainBuilder o hp bp) =
      resolveFields (l₁ ++ mkFieldStructField true fld :: l₂) := by
    rw [struct_fields_iter, hparams, List.nil_append, hdec]
  have hlookup := lookup_resolve (mkFieldStructField true fld) l₁ l₂ h₁
  rw [← hsfi, any_matchFn_false l₂ _ _ h₂, setOver_false] at hlookup
  have hmem : mkFieldStructField true fld ∈ struct_fields_iter (mainBuilder o hp bp) :=
    mem_of_lookupName _ _ _ hlookup
  have hprop : (mkFieldStructField true fld).prop = Property.requiredField := by
    simp [mkFieldStructField, hreq]
  refine ⟨mkFieldStructField true fld, hmem, rfl, hprop, ?_⟩
  have hmemreq : mkFieldStructField true fld ∈ requiredFields (mainBuilder o hp bp) :=
    List.mem_filter.mpr ⟨hmem, by rw [hprop]; rfl⟩
  exact List.mem_map.mpr ⟨mkFieldStructField true fld, hmemreq, rfl⟩

/-- Witness inputs: an object with one schema-required field and one path
operation. -/
def c10_object : ApiObject :=
  { name := "Widget", description := none, path := "",
    fields := [c1_field_id],
    paths := [("/w", c3_ops_a)] }

theorem C10_witness :
    ∃ rest, ApiObject.builders c10_object "pre::" "https://host" =
        mainBuilder c10_object "pre::" "https://host" :: rest ∧
    (mainBuilder c10_object "pre::" "https://host").body_required = true ∧
    (mainBuilder c10_object "pre::" "https://host").method = none ∧
    (mainBuilder c10_object "pre::" "https://host").op_id = none ∧
    (mainBuilder c10_object "pre::" "https://host").response = none ∧
    (mainBuilder c10_object "pre::" "https://host").rel_path = none ∧
    (mainBuilder c10_object "pre::" "https://host").global_params = [] ∧
    (mainBuilder c10_object "pre::" "https://host").local_params = [] ∧
    (mainBuilder c10_object "pre::" "https://host").fields = c10_object.fields ∧
    (write_into_impl c10_object (mainBuilder c10_object "pre::" "https://host")).isSome = true ∧
    ((c10_object.fields.map (fun f => f.name)).Nodup →
      ∀ fld ∈ c10_object.fields, fld.is_required = true →
        ∃ e ∈ struct_fields_iter (mainBuilder c10_object "pre::" "https://host"),
          e.name = fld.name ∧ e.prop = Property.requiredField ∧
          to_camel_case e.name ∈
            write_generics (mainBuilder c10_object "pre::" "https://host")
              TypeParameters.generic) :=
  C10_bare_builder_first c10_object "pre::" "https://host"
